import Mathlib

/-
  Shallow embedding of the collaborative-drawing relay.

  Source material:
  - src/server.js : the WebSocket relay (connection registry, bounded
    drawing history, message dispatch, broadcast fan-out).
  - the client application class (DrawingApp): only its handleMessage
    draw-branch self-filter test is embedded here.

  Modelling conventions:
  - A connected client is a record of its identifier and its transport
    readyState; WebSocket.OPEN is the numeric constant 1.
  - The registry (a JS Set of sockets) is a list of clients in insertion
    order; Set.add appends when absent, Set.delete erases one occurrence.
  - An outbound transmission (one client.send call) is a Send record:
    the target client id, the structured message, and the serialized
    string actually written (JSON.stringify is modelled by serialize).
  - Inbound frames are modelled after JSON.parse plus the type switch:
    a frame is malformed (JSON.parse throws), a known message, or an
    unknown type discriminant.
-/

namespace WsDraw

/-- One drawing event, as produced by the client draw function: segment
endpoints, color, brush size, timestamp and the originating client id.
The clientId field is optional: the relay stores events verbatim and a
broadcast event may lack the field (modelled by none, which also stands
for a JS-falsy id). -/
structure Event where
  fromX : Int
  fromY : Int
  toX : Int
  toY : Int
  color : String
  size : Nat
  timestamp : Nat
  clientId : Option String
deriving DecidableEq, Repr

/-- The outbound message union written by the relay or the client:
draw, clear, ping, pong, history and userCount. -/
inductive OutMsg where
  | draw (e : Event)
  | clear
  | ping
  | pong
  | history (events : List Event)
  | userCount (count : Nat)
deriving DecidableEq, Repr

/-- Serialization of one event (stands in for its JSON object). -/
def serializeEvent (e : Event) : String :=
  toString e.fromX ++ "," ++ toString e.fromY ++ "," ++ toString e.toX ++ ","
    ++ toString e.toY ++ "," ++ e.color ++ "," ++ toString e.size ++ ","
    ++ toString e.timestamp ++ ","
    ++ (match e.clientId with | none => "" | some cid => cid)

/-- Serialization of an outbound message; stands in for JSON.stringify.
Each branch encodes the wire type discriminant and the payload. -/
def serialize : OutMsg → String
  | OutMsg.draw e => "type=draw;data=" ++ serializeEvent e
  | OutMsg.clear => "type=clear"
  | OutMsg.ping => "type=ping"
  | OutMsg.pong => "type=pong"
  | OutMsg.history es =>
      "type=history;data=" ++ String.intercalate ";" (es.map serializeEvent)
  | OutMsg.userCount n => "type=userCount;count=" ++ toString n

/-- A connected client: its identifier and the transport readyState. -/
structure Client where
  cid : Nat
  readyState : Nat
deriving DecidableEq, Repr

/-- WebSocket.OPEN, the readyState value of an open transport. -/
def OPEN : Nat := 1

/-- One transmission: target client id, the structured message, and the
serialized text actually handed to the transport. -/
structure Send where
  target : Nat
  payload : OutMsg
  raw : String
deriving DecidableEq, Repr

/-- The relay process state: the clients Set and the drawingHistory
array of src/server.js. -/
structure ServerState where
  clients : List Client
  drawingHistory : List Event
deriving DecidableEq, Repr

/-- MAX_HISTORY of src/server.js line 53. -/
def MAX_HISTORY : Nat := 1000

/-- broadcastToAll of src/server.js lines 153-165: serialize the message
once, then send it to every registered client whose readyState is OPEN. -/
def broadcastToAll (clients : List Client) (data : OutMsg) : List Send :=
  let message := serialize data
  (clients.filter (fun c => c.readyState == OPEN)).map
    (fun c => ⟨c.cid, data, message⟩)

/-- broadcastUserCount of src/server.js lines 169-182: build a userCount
message carrying the current registry size and send it to every open
client. -/
def broadcastUserCount (clients : List Client) : List Send :=
  let message := serialize (OutMsg.userCount clients.length)
  (clients.filter (fun c => c.readyState == OPEN)).map
    (fun c => ⟨c.cid, OutMsg.userCount clients.length, message⟩)

/-- The draw branch of the message handler, src/server.js lines 89-97:
push the event onto drawingHistory; if the length now exceeds
MAX_HISTORY, shift off the first (oldest) element. -/
def pushDraw (drawingHistory : List Event) (e : Event) : List Event :=
  let h := drawingHistory ++ [e]
  if MAX_HISTORY < h.length then h.tail else h

/-- An inbound frame after JSON.parse and the type switch of
src/server.js lines 80-128: a known message, an unknown type
discriminant, or a frame on which JSON.parse throws. -/
inductive Inbound where
  | draw (e : Event)
  | clear
  | ping
  | other (t : String)
  | malformed
deriving DecidableEq, Repr

/-- The ws.on message handler of src/server.js lines 80-128, as a
function from state and inbound frame to new state and transmissions.
The draw branch appends to history and broadcasts the draw message to
all open clients; clear empties the history and broadcasts; ping
answers pong to the sender only; an unknown discriminant or a parse
failure changes nothing and sends nothing (the catch block only logs). -/
def handleMessage (s : ServerState) (ws : Client) (m : Inbound) :
    ServerState × List Send :=
  match m with
  | Inbound.draw e =>
      (⟨s.clients, pushDraw s.drawingHistory e⟩,
        broadcastToAll s.clients (OutMsg.draw e))
  | Inbound.clear => (⟨s.clients, []⟩, broadcastToAll s.clients OutMsg.clear)
  | Inbound.ping => (s, [⟨ws.cid, OutMsg.pong, serialize OutMsg.pong⟩])
  | Inbound.other _ => (s, [])
  | Inbound.malformed => (s, [])

/-- JS Set.add on the registry list: append when not already present. -/
def setAdd (clients : List Client) (c : Client) : List Client :=
  if c ∈ clients then clients else clients ++ [c]

/-- The wss.on connection handler of src/server.js lines 57-77: add the
socket to the registry; if drawingHistory is non-empty, send a history
message with the full history to the new socket; then broadcast the
user count over the updated registry. -/
def onConnect (s : ServerState) (ws : Client) : ServerState × List Send :=
  let clients := setAdd s.clients ws
  let historySends : List Send :=
    if 0 < s.drawingHistory.length then
      [⟨ws.cid, OutMsg.history s.drawingHistory,
        serialize (OutMsg.history s.drawingHistory)⟩]
    else []
  (⟨clients, s.drawingHistory⟩, historySends ++ broadcastUserCount clients)

/-- The ws.on close handler of src/server.js lines 133-141: delete the
socket from the registry, then broadcast the user count over the
remaining registry. -/
def onClose (s : ServerState) (ws : Client) : ServerState × List Send :=
  let clients := s.clients.erase ws
  (⟨clients, s.drawingHistory⟩, broadcastUserCount clients)

/-- A transport-level event reaching the relay. -/
inductive NetEvent where
  | connect (c : Client)
  | message (c : Client) (m : Inbound)
  | close (c : Client)
deriving DecidableEq, Repr

/-- Dispatch one transport event to its handler. -/
def stepEvent (s : ServerState) : NetEvent → ServerState × List Send
  | NetEvent.connect c => onConnect s c
  | NetEvent.message c m => handleMessage s c m
  | NetEvent.close c => onClose s c

/-- Run a sequence of transport events from a state, concatenating the
transmissions in the order they are written to the transports. -/
def runEvents (s : ServerState) : List NetEvent → ServerState × List Send
  | [] => (s, [])
  | ev :: rest =>
      ((runEvents (stepEvent s ev).1 rest).1,
        (stepEvent s ev).2 ++ (runEvents (stepEvent s ev).1 rest).2)

/-- Per-connection delivery outcome environment: fail t is true when the
transport of client t drops the write. Delivery is fire-and-forget in
the source (client.send, no callback inspected), so a failed write
affects only its own entry. -/
def delivered (fail : Nat → Bool) (sends : List Send) : List Send :=
  sends.filter (fun snd => !(fail snd.target))

/-- Test for a history message among transmissions. -/
def isHistoryPayload (snd : Send) : Bool :=
  match snd.payload with
  | OutMsg.history _ => true
  | _ => false

/-- JS truthiness of the optional clientId field: undefined and the
empty string are falsy. -/
def jsTruthyStr : Option String → Bool
  | none => false
  | some s => !(s == "")

/-- The draw branch of the client handleMessage (DrawingApp): render the
segment exactly when the data clientId field is falsy or differs from
the own client id. -/
def clientRendersDraw (selfId : String) (e : Event) : Bool :=
  !(jsTruthyStr e.clientId) || !(e.clientId == some selfId)

/-- Capped push rewritten as append-then-drop, for lists not above the
capacity. -/
theorem pushDraw_eq_drop (h : List Event) (e : Event)
    (hle : h.length ≤ MAX_HISTORY) :
    pushDraw h e = (h ++ [e]).drop (h.length + 1 - MAX_HISTORY) := by
  unfold pushDraw
  by_cases hlt : MAX_HISTORY < (h ++ [e]).length
  · rw [if_pos hlt]
    have hlen : h.length = MAX_HISTORY := by
      simp only [List.length_append, List.length_singleton] at hlt
      omega
    have h1 : h.length + 1 - MAX_HISTORY = 1 := by omega
    rw [h1, List.drop_one]
  · rw [if_neg hlt]
    have h0 : h.length + 1 - MAX_HISTORY = 0 := by
      simp only [List.length_append, List.length_singleton] at hlt
      omega
    rw [h0, List.drop_zero]

/-- Folding capped pushes over any suffix, from any accumulator within
capacity, keeps exactly the trailing MAX_HISTORY elements. -/
theorem foldl_pushDraw (es : List Event) :
    ∀ h : List Event, h.length ≤ MAX_HISTORY →
      List.foldl pushDraw h es =
        (h ++ es).drop (h.length + es.length - MAX_HISTORY) := by
  induction es with
  | nil =>
      intro h hle
      simp only [List.foldl_nil, List.append_nil, List.length_nil,
        Nat.add_zero, Nat.sub_eq_zero_of_le hle, List.drop_zero]
  | cons e es ih =>
      intro h hle
      rw [List.foldl_cons]
      by_cases hcase : h.length = MAX_HISTORY
      · have hne : 1 ≤ h.length := by
          simp only [MAX_HISTORY] at hcase
          omega
        have hpush : pushDraw h e = h.tail ++ [e] := by
          rw [pushDraw_eq_drop h e hle, hcase]
          have h1 : MAX_HISTORY + 1 - MAX_HISTORY = 1 := by
            simp [MAX_HISTORY]
          rw [h1, List.drop_append_of_le_length hne, List.drop_one]
        have hlen2 : (h.tail ++ [e]).length ≤ MAX_HISTORY := by
          simp only [List.length_append, List.length_tail,
            List.length_singleton, MAX_HISTORY] at hcase ⊢
          omega
        rw [hpush, ih (h.tail ++ [e]) hlen2]
        have hidx1 : (h.tail ++ [e]).length + es.length - MAX_HISTORY =
            es.length := by
          simp only [List.length_append, List.length_tail,
            List.length_singleton, MAX_HISTORY] at hcase ⊢
          omega
        have hidx2 : h.length + (e :: es).length - MAX_HISTORY =
            es.length + 1 := by
          simp only [List.length_cons, MAX_HISTORY] at hcase ⊢
          omega
        rw [hidx1, hidx2]
        obtain ⟨a, t, rfl⟩ : ∃ a t, h = a :: t := by
          cases h with
          | nil => simp at hne
          | cons a t => exact ⟨a, t, rfl⟩
        simp only [List.tail_cons, List.cons_append, List.drop_succ_cons,
          List.append_assoc, List.singleton_append, List.nil_append]
      · have hlt : h.length < MAX_HISTORY := lt_of_le_of_ne hle hcase
        have hpush : pushDraw h e = h ++ [e] := by
          rw [pushDraw_eq_drop h e hle]
          have h0 : h.length + 1 - MAX_HISTORY = 0 := by
            simp only [MAX_HISTORY] at hlt ⊢
            omega
          rw [h0, List.drop_zero]
        have hlen2 : (h ++ [e]).length ≤ MAX_HISTORY := by
          simp only [List.length_append, List.length_singleton,
            MAX_HISTORY] at hlt ⊢
          omega
        rw [hpush, ih (h ++ [e]) hlen2]
        have hidx : (h ++ [e]).length + es.length - MAX_HISTORY =
            h.length + (e :: es).length - MAX_HISTORY := by
          congr 1
          simp only [List.length_append, List.length_singleton,
            List.length_cons, List.length_nil]
          omega
        rw [hidx]
        simp only [List.append_assoc, List.singleton_append, List.nil_append]

/-- A concrete event for witnesses. -/
def e0 : Event := ⟨0, 0, 5, 5, ("black"), 3, 0, none⟩

/-- A concrete event without a clientId field for witnesses. -/
def e1 : Event := ⟨0, 0, 1, 1, ("red"), 2, 5, none⟩

/-- The fan-out unfolded: one serialization mapped over the open members. -/
theorem broadcastToAll_eq (clients : List Client) (data : OutMsg) :
    broadcastToAll clients data =
      (clients.filter (fun c => c.readyState == OPEN)).map
        (fun c => ⟨c.cid, data, serialize data⟩) := rfl

/-- The user-count fan-out unfolded. -/
theorem broadcastUserCount_eq (clients : List Client) :
    broadcastUserCount clients =
      (clients.filter (fun c => c.readyState == OPEN)).map
        (fun c => ⟨c.cid, OutMsg.userCount clients.length,
          serialize (OutMsg.userCount clients.length)⟩) := rfl

/-- Membership in a fan-out: exactly the open registered members, each
with the one serialized form of the message. -/
theorem mem_broadcastToAll {clients : List Client} {data : OutMsg}
    {snd : Send} :
    snd ∈ broadcastToAll clients data ↔
      ∃ c, c ∈ clients ∧ c.readyState = OPEN ∧
        snd = ⟨c.cid, data, serialize data⟩ := by
  rw [broadcastToAll_eq]
  constructor
  · intro hmem
    rcases List.mem_map.mp hmem with ⟨c, hc, rfl⟩
    rcases List.mem_filter.mp hc with ⟨hcl, hop⟩
    exact ⟨c, hcl, by simpa using hop, rfl⟩
  · rintro ⟨c, hcl, hop, rfl⟩
    exact List.mem_map.mpr ⟨c, List.mem_filter.mpr ⟨hcl, by simpa using hop⟩,
      rfl⟩

/-- Membership in a user-count fan-out. -/
theorem mem_broadcastUserCount {clients : List Client} {snd : Send} :
    snd ∈ broadcastUserCount clients ↔
      ∃ c, c ∈ clients ∧ c.readyState = OPEN ∧
        snd = ⟨c.cid, OutMsg.userCount clients.length,
          serialize (OutMsg.userCount clients.length)⟩ := by
  rw [broadcastUserCount_eq]
  constructor
  · intro hmem
    rcases List.mem_map.mp hmem with ⟨c, hc, rfl⟩
    rcases List.mem_filter.mp hc with ⟨hcl, hop⟩
    exact ⟨c, hcl, by simpa using hop, rfl⟩
  · rintro ⟨c, hcl, hop, rfl⟩
    exact List.mem_map.mpr ⟨c, List.mem_filter.mpr ⟨hcl, by simpa using hop⟩,
      rfl⟩

/-- Every transmission of a fan-out carries the broadcast message. -/
theorem payload_of_mem_broadcastToAll {clients : List Client}
    {data : OutMsg} {snd : Send} (h : snd ∈ broadcastToAll clients data) :
    snd.payload = data := by
  rcases mem_broadcastToAll.mp h with ⟨c, _, _, rfl⟩
  rfl

/-- Every transmission of a user-count fan-out carries the count. -/
theorem payload_of_mem_broadcastUserCount {clients : List Client}
    {snd : Send} (h : snd ∈ broadcastUserCount clients) :
    snd.payload = OutMsg.userCount clients.length := by
  rcases mem_broadcastUserCount.mp h with ⟨c, _, _, rfl⟩
  rfl

/-- A user-count fan-out contains no history message. -/
theorem filter_history_broadcastUserCount (clients : List Client) :
    (broadcastUserCount clients).filter isHistoryPayload = [] := by
  rw [List.filter_eq_nil_iff]
  intro snd hmem
  have hp := payload_of_mem_broadcastUserCount hmem
  simp [isHistoryPayload, hp]

/-- Claim C1: starting from the empty EventLog, any sequence of N
appends leaves exactly the last min(N, MAX_HISTORY) appended events in
their original relative order, so the length is min(N, MAX_HISTORY) and
never exceeds MAX_HISTORY at any intermediate point. -/
theorem eventLog_capacity_fifo (es : List Event) :
    (List.foldl pushDraw [] es).length = min es.length MAX_HISTORY ∧
    List.foldl pushDraw [] es = es.drop (es.length - MAX_HISTORY) ∧
    ∀ n : Nat, ((es.take n).foldl pushDraw []).length ≤ MAX_HISTORY := by
  have hmain : ∀ l : List Event,
      List.foldl pushDraw [] l = l.drop (l.length - MAX_HISTORY) := by
    intro l
    have h := foldl_pushDraw l [] (by simp)
    simpa using h
  refine ⟨?_, hmain es, ?_⟩
  · rw [hmain es, List.length_drop]
    simp only [MAX_HISTORY]
    omega
  · intro n
    rw [hmain (es.take n), List.length_drop]
    simp only [MAX_HISTORY]
    omega

/-- Claim C2: a valid inbound draw message appends its event to the
EventLog (registry untouched) and fans the draw message out to every
open registry member; in particular the open sender itself is among the
recipients, never omitted. -/
theorem draw_append_broadcast (s : ServerState) (sender : Client)
    (e : Event) (hmem : sender ∈ s.clients)
    (hopen : sender.readyState = OPEN) :
    (handleMessage s sender (Inbound.draw e)).1.drawingHistory =
      pushDraw s.drawingHistory e ∧
    (handleMessage s sender (Inbound.draw e)).1.clients = s.clients ∧
    (handleMessage s sender (Inbound.draw e)).2 =
      broadcastToAll s.clients (OutMsg.draw e) ∧
    (∀ c, c ∈ s.clients → c.readyState = OPEN →
      (⟨c.cid, OutMsg.draw e, serialize (OutMsg.draw e)⟩ : Send) ∈
        (handleMessage s sender (Inbound.draw e)).2) ∧
    (⟨sender.cid, OutMsg.draw e, serialize (OutMsg.draw e)⟩ : Send) ∈
      (handleMessage s sender (Inbound.draw e)).2 := by
  have hmemb : ∀ c, c ∈ s.clients → c.readyState = OPEN →
      (⟨c.cid, OutMsg.draw e, serialize (OutMsg.draw e)⟩ : Send) ∈
        broadcastToAll s.clients (OutMsg.draw e) := by
    intro c hc hop
    exact mem_broadcastToAll.mpr ⟨c, hc, hop, rfl⟩
  exact ⟨rfl, rfl, rfl, fun c hc hop => hmemb c hc hop,
    hmemb sender hmem hopen⟩

/-- Witness for Claim C2 on a one-client registry. -/
theorem draw_append_broadcast_witness :
    (⟨1, OutMsg.draw e0, serialize (OutMsg.draw e0)⟩ : Send) ∈
      (handleMessage ⟨[⟨1, 1⟩], []⟩ ⟨1, 1⟩ (Inbound.draw e0)).2 :=
  (draw_append_broadcast ⟨[⟨1, 1⟩], []⟩ ⟨1, 1⟩ e0 (by decide) rfl).2.2.2.2

/-- Claim C3: a broadcast serializes the message once (every
transmission carries that one serialized form), attempts delivery to
exactly the registered members whose transport is open, skips the rest,
and a per-connection delivery failure removes only that delivery, never
the remaining fan-out; the function is total, so nothing is raised to
the caller. -/
theorem broadcast_serialize_once_isolated (clients : List Client)
    (data : OutMsg) (fail : Nat → Bool) :
    broadcastToAll clients data =
      (clients.filter (fun c => c.readyState == OPEN)).map
        (fun c => ⟨c.cid, data, serialize data⟩) ∧
    (∀ snd, snd ∈ broadcastToAll clients data →
      snd.raw = serialize data) ∧
    (∀ c, c ∈ clients → c.readyState = OPEN → fail c.cid = false →
      (⟨c.cid, data, serialize data⟩ : Send) ∈
        delivered fail (broadcastToAll clients data)) := by
  refine ⟨rfl, ?_, ?_⟩
  · intro snd hmem
    rcases mem_broadcastToAll.mp hmem with ⟨c, _, _, rfl⟩
    rfl
  · intro c hc hop hfail
    exact List.mem_filter.mpr ⟨mem_broadcastToAll.mpr ⟨c, hc, hop, rfl⟩,
      by simp [hfail]⟩

/-- Witness for Claim C3: one open and one closed member, no failures. -/
theorem broadcast_serialize_once_isolated_witness :
    (⟨1, OutMsg.clear, serialize OutMsg.clear⟩ : Send) ∈
      delivered (fun _ => false)
        (broadcastToAll [⟨1, 1⟩, ⟨2, 0⟩] OutMsg.clear) :=
  (broadcast_serialize_once_isolated [⟨1, 1⟩, ⟨2, 0⟩] OutMsg.clear
    (fun _ => false)).2.2 ⟨1, 1⟩ (by decide) rfl rfl

/-- Claim C4: an inbound clear message empties the EventLog regardless
of its prior content (so any later snapshot is empty), leaves the
registry unchanged, and fans the clear message out to the registry. -/
theorem clear_reset_broadcast (s : ServerState) (sender : Client) :
    (handleMessage s sender Inbound.clear).1.drawingHistory = [] ∧
    (handleMessage s sender Inbound.clear).1.clients = s.clients ∧
    (handleMessage s sender Inbound.clear).2 =
      broadcastToAll s.clients OutMsg.clear :=
  ⟨rfl, rfl, rfl⟩

/-- Claim C5: an unrecognized type discriminant or an undecodable frame
changes neither the EventLog nor the registry, emits no transmission,
leaves the connection registered (open), and a subsequent message from
the same connection is handled exactly as if the bad frame had never
arrived. -/
theorem invalid_frame_no_effect (s : ServerState) (sender : Client)
    (t : String) (m : Inbound) :
    handleMessage s sender (Inbound.other t) = (s, []) ∧
    handleMessage s sender Inbound.malformed = (s, []) ∧
    handleMessage (handleMessage s sender (Inbound.other t)).1 sender m =
      handleMessage s sender m ∧
    handleMessage (handleMessage s sender Inbound.malformed).1 sender m =
      handleMessage s sender m :=
  ⟨rfl, rfl, rfl, rfl⟩

/-- The connect handler output, unfolded. -/
theorem onConnect_sends (s : ServerState) (c : Client) :
    (onConnect s c).2 =
      (if 0 < s.drawingHistory.length then
        [⟨c.cid, OutMsg.history s.drawingHistory,
          serialize (OutMsg.history s.drawingHistory)⟩]
       else []) ++ broadcastUserCount (setAdd s.clients c) := rfl

/-- The close handler output, unfolded. -/
theorem onClose_sends (s : ServerState) (d : Client) :
    (onClose s d).2 = broadcastUserCount (s.clients.erase d) := rfl

/-- Claim C6: a connect while the log is non-empty produces exactly one
history transmission, addressed to the new connection, whose payload is
the snapshot taken at connect time; and the transmissions of the
connect precede, in the relay output trace, every transmission caused
by events arriving after the connect. -/
theorem connect_history_replay (s : ServerState) (c : Client)
    (rest : List NetEvent) (hne : s.drawingHistory ≠ []) :
    (onConnect s c).2.filter isHistoryPayload =
      [⟨c.cid, OutMsg.history s.drawingHistory,
        serialize (OutMsg.history s.drawingHistory)⟩] ∧
    (runEvents s (NetEvent.connect c :: rest)).2 =
      (onConnect s c).2 ++ (runEvents (onConnect s c).1 rest).2 := by
  constructor
  · have hpos : 0 < s.drawingHistory.length := List.length_pos.mpr hne
    rw [onConnect_sends, if_pos hpos, List.filter_append,
      filter_history_broadcastUserCount, List.append_nil]
    rfl
  · rfl

/-- Witness for Claim C6: a single-event log replayed to client 1. -/
theorem connect_history_replay_witness :
    (onConnect ⟨[], [e0]⟩ ⟨1, 1⟩).2.filter isHistoryPayload =
      [⟨1, OutMsg.history [e0], serialize (OutMsg.history [e0])⟩] :=
  (connect_history_replay ⟨[], [e0]⟩ ⟨1, 1⟩ [] (by simp)).1

/-- Claim C7 counterexample: after a clear empties the log, a newly
connecting client 2 receives no history transmission at all, rather
than a history message with an empty payload: the connect output after
the clear contains no history-typed transmission and in particular not
the empty-payload history message. -/
theorem clear_then_connect_history_cex :
    (handleMessage ⟨[⟨1, 1⟩], [e0]⟩ ⟨1, 1⟩ Inbound.clear).1.drawingHistory
      = [] ∧
    ((onConnect (handleMessage ⟨[⟨1, 1⟩], [e0]⟩ ⟨1, 1⟩ Inbound.clear).1
        ⟨2, 1⟩).2.filter isHistoryPayload) = [] ∧
    (⟨2, OutMsg.history [], serialize (OutMsg.history [])⟩ : Send) ∉
      (onConnect (handleMessage ⟨[⟨1, 1⟩], [e0]⟩ ⟨1, 1⟩ Inbound.clear).1
        ⟨2, 1⟩).2 := by
  refine ⟨rfl, rfl, ?_⟩
  decide

/-- Claim C7 (amended): a participant connecting while the EventLog is
empty, for instance right after a clear emptied it, receives no history
message at all; the connect produces only the user-count fan-out,
because the relay sends history only when the log is non-empty. -/
theorem connect_empty_log_no_history (s : ServerState) (c : Client)
    (h : s.drawingHistory = []) :
    (onConnect s c).2.filter isHistoryPayload = [] ∧
    (onConnect s c).2 = broadcastUserCount (setAdd s.clients c) := by
  have hneg : ¬ 0 < s.drawingHistory.length := by
    rw [h]
    simp
  constructor
  · rw [onConnect_sends, if_neg hneg, List.nil_append,
      filter_history_broadcastUserCount]
  · rw [onConnect_sends, if_neg hneg, List.nil_append]

/-- Witness for the amended Claim C7: connect onto an empty log. -/
theorem connect_empty_log_no_history_witness :
    (onConnect ⟨[], []⟩ ⟨3, 1⟩).2.filter isHistoryPayload = [] :=
  (connect_empty_log_no_history ⟨[], []⟩ ⟨3, 1⟩ rfl).1

/-- Claim C8: every user-count transmission emitted by a connect of a
fresh client carries the registry size including the new member, and
every user-count transmission emitted by a disconnect of a member
carries the size excluding it; each open member of the updated registry
receives that count (the registry update precedes the count). -/
theorem userCount_registry_size (s : ServerState) (c d : Client)
    (hc : c ∉ s.clients) (hd : d ∈ s.clients) :
    (∀ snd, snd ∈ (onConnect s c).2 → ∀ n,
      snd.payload = OutMsg.userCount n → n = s.clients.length + 1) ∧
    (∀ m, m ∈ setAdd s.clients c → m.readyState = OPEN →
      (⟨m.cid, OutMsg.userCount (s.clients.length + 1),
        serialize (OutMsg.userCount (s.clients.length + 1))⟩ : Send) ∈
        (onConnect s c).2) ∧
    (∀ snd, snd ∈ (onClose s d).2 → ∀ n,
      snd.payload = OutMsg.userCount n → n = s.clients.length - 1) ∧
    (∀ m, m ∈ s.clients.erase d → m.readyState = OPEN →
      (⟨m.cid, OutMsg.userCount (s.clients.length - 1),
        serialize (OutMsg.userCount (s.clients.length - 1))⟩ : Send) ∈
        (onClose s d).2) := by
  have hlen1 : (setAdd s.clients c).length = s.clients.length + 1 := by
    simp [setAdd, hc]
  have hlen2 : (s.clients.erase d).length = s.clients.length - 1 := by
    have h := List.length_erase_add_one hd
    omega
  refine ⟨?_, ?_, ?_, ?_⟩
  · intro snd hs n hp
    rw [onConnect_sends] at hs
    rcases List.mem_append.mp hs with h1 | h2
    · by_cases hpos : 0 < s.drawingHistory.length
      · rw [if_pos hpos] at h1
        rcases List.mem_singleton.mp h1 with rfl
        simp at hp
      · rw [if_neg hpos] at h1
        simp at h1
    · have hq := payload_of_mem_broadcastUserCount h2
      rw [hq] at hp
      rw [← hlen1]
      exact (OutMsg.userCount.injEq _ _).mp hp.symm
  · intro m hm hop
    rw [onConnect_sends, ← hlen1]
    exact List.mem_append_right _
      (mem_broadcastUserCount.mpr ⟨m, hm, hop, rfl⟩)
  · intro snd hs n hp
    rw [onClose_sends] at hs
    have hq := payload_of_mem_broadcastUserCount hs
    rw [hq] at hp
    rw [← hlen2]
    exact (OutMsg.userCount.injEq _ _).mp hp.symm
  · intro m hm hop
    rw [onClose_sends, ← hlen2]
    exact mem_broadcastUserCount.mpr ⟨m, hm, hop, rfl⟩

/-- Witness for Claim C8: client 2 joins a one-member registry and is
told the count 2. -/
theorem userCount_registry_size_witness :
    (⟨2, OutMsg.userCount 2, serialize (OutMsg.userCount 2)⟩ : Send) ∈
      (onConnect ⟨[⟨1, 1⟩], []⟩ ⟨2, 1⟩).2 :=
  (userCount_registry_size ⟨[⟨1, 1⟩], []⟩ ⟨2, 1⟩ ⟨1, 1⟩ (by decide)
    (by decide)).2.1 ⟨2, 1⟩ (by decide) rfl

/-- No single dispatch step ever emits a ping transmission. -/
theorem no_ping_stepEvent (s : ServerState) (ev : NetEvent) (snd : Send)
    (h : snd ∈ (stepEvent s ev).2) : snd.payload ≠ OutMsg.ping := by
  cases ev with
  | connect c =>
      have h2 := h
      rw [show (stepEvent s (NetEvent.connect c)).2 = (onConnect s c).2
        from rfl, onConnect_sends] at h2
      rcases List.mem_append.mp h2 with h1 | h3
      · by_cases hpos : 0 < s.drawingHistory.length
        · rw [if_pos hpos] at h1
          rcases List.mem_singleton.mp h1 with rfl
          simp
        · rw [if_neg hpos] at h1
          simp at h1
      · rw [payload_of_mem_broadcastUserCount h3]
        simp
  | message c m =>
      cases m with
      | draw e =>
          rw [payload_of_mem_broadcastToAll h]
          simp
      | clear =>
          rw [payload_of_mem_broadcastToAll h]
          simp
      | ping =>
          rcases List.mem_singleton.mp h with rfl
          simp
      | other t => simp [stepEvent, handleMessage] at h
      | malformed => simp [stepEvent, handleMessage] at h
  | close c =>
      have h2 := h
      rw [show (stepEvent s (NetEvent.close c)).2 = (onClose s c).2
        from rfl, onClose_sends] at h2
      rw [payload_of_mem_broadcastUserCount h2]
      simp

/-- No relay output trace ever contains a ping transmission. -/
theorem no_ping_runEvents (evts : List NetEvent) :
    ∀ s snd, snd ∈ (runEvents s evts).2 → snd.payload ≠ OutMsg.ping := by
  induction evts with
  | nil =>
      intro s snd h
      simp [runEvents] at h
  | cons ev rest ih =>
      intro s snd h
      rcases List.mem_append.mp h with h1 | h2
      · exact no_ping_stepEvent s ev snd h1
      · exact ih (stepEvent s ev).1 snd h2

/-- Claim C9: an inbound ping is answered by exactly one pong sent to
the originating connection (no fan-out), with the EventLog and the
registry unchanged; and the relay never initiates a liveness probe: no
output trace of the relay contains a ping transmission. -/
theorem ping_reply_pong (s : ServerState) (sender : Client) :
    handleMessage s sender Inbound.ping =
      (s, [⟨sender.cid, OutMsg.pong, serialize OutMsg.pong⟩]) ∧
    (∀ evts snd, snd ∈ (runEvents s evts).2 →
      snd.payload ≠ OutMsg.ping) :=
  ⟨rfl, fun evts snd h => no_ping_runEvents evts s snd h⟩

/-- Witness for Claim C9: a ping from client 1 and the resulting pong. -/
theorem ping_reply_pong_witness :
    handleMessage ⟨[⟨1, 1⟩], []⟩ ⟨1, 1⟩ Inbound.ping =
      (⟨[⟨1, 1⟩], []⟩, [⟨1, OutMsg.pong, serialize OutMsg.pong⟩]) ∧
    (⟨1, OutMsg.pong, serialize OutMsg.pong⟩ : Send).payload ≠
      OutMsg.ping :=
  ⟨(ping_reply_pong ⟨[⟨1, 1⟩], []⟩ ⟨1, 1⟩).1,
    (ping_reply_pong ⟨[⟨1, 1⟩], []⟩ ⟨1, 1⟩).2
      [NetEvent.message ⟨1, 1⟩ Inbound.ping]
      ⟨1, OutMsg.pong, serialize OutMsg.pong⟩
      (by simp [runEvents, stepEvent, handleMessage])⟩

/-- Claim C10: the client renders a received draw exactly when the
clientId of the event is JS-falsy (absent or empty) or differs from its
own id; in particular an event carrying no clientId is rendered by
every client, including its originator. -/
theorem client_self_filter (selfId : String) (e : Event) :
    (clientRendersDraw selfId e = true ↔
      (jsTruthyStr e.clientId = false ∨ e.clientId ≠ some selfId)) ∧
    (e.clientId = none → clientRendersDraw selfId e = true) := by
  constructor
  · simp only [clientRendersDraw, Bool.or_eq_true, Bool.not_eq_true',
      beq_eq_false_iff_ne, ne_eq]
  · intro h
    simp [clientRendersDraw, h, jsTruthyStr]

/-- Witness for Claim C10: an event without clientId is rendered. -/
theorem client_self_filter_witness :
    clientRendersDraw ("me") e1 = true :=
  (client_self_filter ("me") e1).2 rfl

end WsDraw
